import Mathlib

/-!
Shallow embedding of the gift-recommendation engine
(backend/src/domain: embedding_service.py, recommendation_service.py and the
entities they use).  Python floats are modelled as rationals, Python lists as
Lean lists, and Python exceptions as `Except String`.  Every definition is
translated from the source file it names, except where a doc comment says
`Modelled from the spec:`.
-/

namespace GiftRec

/-- Price bracket enumeration (entities/price_range.py). -/
inductive PriceRange where
  | budget
  | moderate
  | premium
  | luxury
deriving DecidableEq, Repr

/-- Catalog item (entities/gift.py).  `id` models `str(gift.id)` of the UUID
field; only the fields read by the recommendation service are kept, with the
same names.  The pydantic validators force `embedding` to have exactly 1536
entries; here the length is left free so that theorems can state which
hypotheses on it they need. -/
structure Gift where
  id : String
  name : String
  brief_description : String
  full_description : String
  price_range : PriceRange
  categories : List String
  embedding : List ℚ
  popularity_score : ℚ

/-- Output item (entities/recommendation_response.py, GiftRecommendation). -/
structure GiftRecommendation where
  id : String
  name : String
  brief_description : String
  relevance_score : ℚ
  price_range : PriceRange
  categories : List String

/-- Query metadata (entities/query_context.py). -/
structure QueryContext where
  total_searched : Nat
  above_threshold : Nat
  starred_boost_applied : Bool
  fallback_used : Bool

/-- Response envelope (entities/recommendation_response.py). -/
structure RecommendationResponse where
  gifts : List GiftRecommendation
  query_context : QueryContext

/-- Input (entities/recommendation_request.py); validation (length bounds,
limit in [3,10]) happens before the service is called and is not re-modelled,
so `limit` is a plain natural number. -/
structure RecommendationRequest where
  recipient_description : String
  past_gifts : List String
  starred_gift_ids : List String
  limit : Nat

/-- The vector-store collaborator (ports/vector_store.py), modelled as a
record of pure functions: each field is one port method used by
`get_recommendations`. -/
structure VectorStoreModel where
  get_by_ids : List String → List Gift
  search_similar : List ℚ → Nat → ℚ → List (Gift × ℚ)
  get_popular : Nat → List (Gift × ℚ)
  get_total_count : Nat

/-- One iteration of the inner accumulation loop of
`EmbeddingService.blend_embeddings` (embedding_service.py lines 62-64):
`for i in range(dimension): blended[i] += embedding[i] * weight`.
Raises IndexError when the embedding is shorter than the accumulator;
components of the embedding beyond `blended.length` are never read. -/
def addWeighted (blended : List ℚ) (embedding : List ℚ) (weight : ℚ) :
    Except String (List ℚ) :=
  if blended.length ≤ embedding.length then
    .ok (List.zipWith (fun b x => b + x * weight) blended embedding)
  else
    .error "IndexError: list index out of range"

/-- `EmbeddingService.blend_embeddings` (embedding_service.py lines 39-66).
A single vector is returned unchanged before weights are even looked at;
default weights are `1/N` each (ZeroDivisionError on an empty list);
`dimension` is the first vector's length (IndexError on an empty list when
weights were supplied); the accumulation pairs vectors with weights by `zip`,
which silently drops unpaired entries exactly as Python does. -/
def blend_embeddings (embeddings : List (List ℚ)) (weights : Option (List ℚ)) :
    Except String (List ℚ) :=
  if embeddings.length = 1 then
    .ok embeddings.headI
  else do
    let ws ← match weights with
      | some ws => pure ws
      | none =>
        if embeddings.length = 0 then
          Except.error "ZeroDivisionError: float division by zero"
        else
          pure (List.replicate embeddings.length ((1 : ℚ) / embeddings.length))
    let dimension ← match embeddings with
      | [] => Except.error "IndexError: list index out of range"
      | e :: _ => pure e.length
    (embeddings.zip ws).foldlM
      (fun blended p => addWeighted blended p.1 p.2)
      (List.replicate dimension (0 : ℚ))

/-- `EmbeddingService.subtract_embedding` (embedding_service.py lines 68-93):
`result[i] = positive[i] - negative[i] * negative_weight` for
`i in range(len(positive))`; IndexError when `negative` is shorter, extra
entries of a longer `negative` are ignored.  The Python default for
`negative_weight` is 0.3; callers of this model pass the weight explicitly. -/
def subtract_embedding (positive negative : List ℚ) (negative_weight : ℚ) :
    Except String (List ℚ) :=
  if positive.length ≤ negative.length then
    .ok (List.zipWith (fun p n => p - n * negative_weight) positive negative)
  else
    .error "IndexError: list index out of range"

/-- `RecommendationService._gift_to_recommendation`
(recommendation_service.py lines 125-146). -/
def gift_to_recommendation (gift : Gift) (score : ℚ) : GiftRecommendation :=
  { id := gift.id
    name := gift.name
    brief_description := gift.brief_description
    relevance_score := score
    price_range := gift.price_range
    categories := gift.categories }

/-- `limit = request.limit or 10` (recommendation_service.py line 75): Python
integer truthiness makes 0 fall back to 10. -/
def effectiveLimit (request : RecommendationRequest) : Nat :=
  if request.limit = 0 then 10 else request.limit

/-- Insert one recommendation into a list that is already sorted by
`relevance_score` descending, after every element of score ≥ its own.
Together with `sortByScoreDesc` this is the unique stable descending sort,
which is what CPython's `list.sort(key=..., reverse=True)` computes
(reverse=True keeps equal-key elements in their original order). -/
def insertByScoreDesc (g : GiftRecommendation) :
    List GiftRecommendation → List GiftRecommendation
  | [] => [g]
  | h :: t =>
    if h.relevance_score < g.relevance_score then g :: h :: t
    else h :: insertByScoreDesc g t

/-- Model of `gifts.sort(key=lambda g: g.relevance_score, reverse=True)`
(recommendation_service.py line 108): stable descending insertion sort. -/
def sortByScoreDesc (l : List GiftRecommendation) : List GiftRecommendation :=
  l.foldl (fun acc g => insertByScoreDesc g acc) []

/-- Lines 45-72 of recommendation_service.py: embed the recipient description
(the single provider call of this flow — the second component counts provider
invocations), then optionally fetch the starred gifts and blend their
embeddings into the query vector with weights `[0.5] + [0.5/K]*K`.  Returns
`(query_embedding, starred_boost_applied, starred_gift_ids)`; the id set
`{str(g.id) for g in starred_gifts}` is modelled by `dedup` of the id list
(same membership, same cardinality). -/
def computeQueryVector (embed : String → List ℚ) (store : VectorStoreModel)
    (request : RecommendationRequest) :
    Except String ((List ℚ × Bool × List String) × Nat) :=
  let query_embedding := embed request.recipient_description
  if request.starred_gift_ids.isEmpty then
    .ok ((query_embedding, false, []), 1)
  else
    let starred_gifts := store.get_by_ids request.starred_gift_ids
    if starred_gifts.isEmpty then
      .ok ((query_embedding, false, []), 1)
    else
      let starred_gift_ids := (starred_gifts.map (fun g => g.id)).dedup
      let starred_embeddings :=
        (starred_gifts.filter (fun g => !g.embedding.isEmpty)).map
          (fun g => g.embedding)
      if starred_embeddings.isEmpty then
        .ok ((query_embedding, true, starred_gift_ids), 1)
      else
        let num_starred := starred_embeddings.length
        let weights :=
          ((1 : ℚ) / 2) :: List.replicate num_starred ((1 : ℚ) / 2 / num_starred)
        match blend_embeddings (query_embedding :: starred_embeddings)
            (some weights) with
        | .ok blended => .ok ((blended, true, starred_gift_ids), 1)
        | .error e => .error e

/-- Lines 79-105 of recommendation_service.py: similarity search at threshold
0.5, popularity fallback when it returns nothing, exclusion of starred ids,
and conversion to recommendations, all in retrieval order. -/
def retrievedGifts (store : VectorStoreModel) (query_embedding : List ℚ)
    (starred_gift_ids : List String) (search_limit : Nat) :
    List GiftRecommendation :=
  let search_results := store.search_similar query_embedding search_limit ((1 : ℚ) / 2)
  let results :=
    if search_results.isEmpty then store.get_popular search_limit
    else search_results
  (results.filter (fun p => decide (¬ p.1.id ∈ starred_gift_ids))).map
    (fun p => gift_to_recommendation p.1 p.2)

/-- Lines 107-118 of recommendation_service.py: stable descending sort,
truncation to `limit`, and assembly of the response with its query context
(`above_threshold` counts the final, truncated items with score ≥ 0.5;
`fallback_used` records whether the similarity search came back empty). -/
def responseFor (store : VectorStoreModel) (query_embedding : List ℚ)
    (starred_boost_applied : Bool) (starred_gift_ids : List String)
    (limit search_limit : Nat) : RecommendationResponse :=
  let gifts :=
    (sortByScoreDesc
      (retrievedGifts store query_embedding starred_gift_ids search_limit)).take
      limit
  { gifts := gifts,
    query_context :=
      { total_searched := store.get_total_count,
        above_threshold :=
          (gifts.filter
            (fun g => decide ((1 : ℚ) / 2 ≤ g.relevance_score))).length,
        starred_boost_applied := starred_boost_applied,
        fallback_used :=
          (store.search_similar query_embedding search_limit
            ((1 : ℚ) / 2)).isEmpty } }

/-- `RecommendationService.get_recommendations`
(recommendation_service.py lines 33-123), composed from `computeQueryVector`
(lines 45-72), `retrievedGifts` (lines 79-105) and `responseFor`
(lines 107-118).  The second component of the result is the number of
embedding-provider invocations made while serving the request
(instrumentation, threaded from `computeQueryVector`; no later stage calls
the provider). -/
def get_recommendations (embed : String → List ℚ) (store : VectorStoreModel)
    (request : RecommendationRequest) :
    Except String (RecommendationResponse × Nat) :=
  match computeQueryVector embed store request with
  | .error e => .error e
  | .ok ((query_embedding, starred_boost_applied, starred_gift_ids),
         provider_calls) =>
    let limit := effectiveLimit request
    let search_limit := limit + starred_gift_ids.length
    .ok (responseFor store query_embedding starred_boost_applied
      starred_gift_ids limit search_limit, provider_calls)

/-- Modelled from the spec: the keyword-style request shape (`keywords` plus
optional `negative_keywords`, spec section 3) appears in the repository only
through its tests; the entity and orchestration code for it is not under src.
-/
structure KeywordRequest where
  keywords : String
  negative_keywords : Option String

/-- Modelled from the spec: steps 1-2 of the keyword-style orchestration
(spec section 4.2) — embed `keywords`; when `negative_keywords` is present,
embed it with one extra provider call and subtract the resulting vector from
the query vector with weight 0.3.  The second component counts the
embedding-provider invocations. -/
def composeKeywordQueryVector (embed : String → List ℚ)
    (request : KeywordRequest) : Except String (List ℚ) × Nat :=
  match request.negative_keywords with
  | none => (.ok (embed request.keywords), 1)
  | some nk =>
    (subtract_embedding (embed request.keywords) (embed nk) ((3 : ℚ) / 10), 2)

/-! Helper lemmas about the accumulation loop of `blend_embeddings`. -/

lemma addWeighted_ok (blended e : List ℚ) (w : ℚ)
    (h : blended.length ≤ e.length) :
    addWeighted blended e w =
      .ok (List.zipWith (fun b x => b + x * w) blended e) := by
  simp [addWeighted, h]

lemma addWeighted_error (blended e : List ℚ) (w : ℚ)
    (h : e.length < blended.length) :
    addWeighted blended e w = .error "IndexError: list index out of range" := by
  simp [addWeighted, Nat.not_le.mpr h]

lemma length_zipWith_add (blended e : List ℚ) (w : ℚ)
    (h : blended.length ≤ e.length) :
    (List.zipWith (fun b x => b + x * w) blended e).length = blended.length := by
  simp [List.length_zipWith]
  omega

lemma getD_zipWith_add (blended e : List ℚ) (w : ℚ) (i : Nat)
    (h : blended.length ≤ e.length) (hi : i < blended.length) :
    (List.zipWith (fun b x => b + x * w) blended e).getD i 0 =
      blended.getD i 0 + e.getD i 0 * w := by
  have hiz : i < (List.zipWith (fun b x => b + x * w) blended e).length := by
    rw [length_zipWith_add blended e w h]; exact hi
  have hie : i < e.length := lt_of_lt_of_le hi h
  rw [List.getD_eq_getElem _ _ hiz, List.getD_eq_getElem _ _ hi,
    List.getD_eq_getElem _ _ hie, List.getElem_zipWith]

lemma foldAdd_ok (pairs : List (List ℚ × ℚ)) (acc : List ℚ)
    (h : ∀ p ∈ pairs, acc.length ≤ p.1.length) :
    ∃ r, List.foldlM (fun blended p => addWeighted blended p.1 p.2) acc pairs
        = .ok r ∧
      r.length = acc.length ∧
      ∀ i, i < acc.length →
        r.getD i 0 = acc.getD i 0 +
          (pairs.map (fun p => p.1.getD i 0 * p.2)).sum := by
  induction pairs generalizing acc with
  | nil =>
    refine ⟨acc, rfl, rfl, fun i _ => by simp⟩
  | cons p ps ih =>
    have hp : acc.length ≤ p.1.length := h p (List.mem_cons_self p ps)
    have hstep := addWeighted_ok acc p.1 p.2 hp
    set acc2 := List.zipWith (fun b x => b + x * p.2) acc p.1 with hacc2
    have hlen2 : acc2.length = acc.length := length_zipWith_add acc p.1 p.2 hp
    have hrest : ∀ q ∈ ps, acc2.length ≤ q.1.length := by
      intro q hq
      rw [hlen2]
      exact h q (List.mem_cons_of_mem p hq)
    obtain ⟨r, hr, hrlen, hrget⟩ := ih acc2 hrest
    refine ⟨r, ?_, by rw [hrlen, hlen2], ?_⟩
    · rw [List.foldlM_cons, hstep]
      simpa using hr
    · intro i hi
      have hi2 : i < acc2.length := by rw [hlen2]; exact hi
      rw [hrget i hi2, getD_zipWith_add acc p.1 p.2 i hp hi]
      simp [add_assoc]

lemma foldAdd_error (pairs : List (List ℚ × ℚ)) (acc : List ℚ)
    (h : ∃ p ∈ pairs, p.1.length < acc.length) :
    ∃ msg, List.foldlM (fun blended p => addWeighted blended p.1 p.2) acc pairs
        = .error msg := by
  induction pairs generalizing acc with
  | nil => simp at h
  | cons p ps ih =>
    by_cases hp : acc.length ≤ p.1.length
    · have hstep := addWeighted_ok acc p.1 p.2 hp
      set acc2 := List.zipWith (fun b x => b + x * p.2) acc p.1 with hacc2
      have hlen2 : acc2.length = acc.length := length_zipWith_add acc p.1 p.2 hp
      obtain ⟨q, hq, hqlt⟩ := h
      rcases List.mem_cons.mp hq with rfl | hq2
      · omega
      · obtain ⟨msg, hmsg⟩ := ih acc2 ⟨q, hq2, by omega⟩
        refine ⟨msg, ?_⟩
        rw [List.foldlM_cons, hstep]
        simpa using hmsg
    · refine ⟨"IndexError: list index out of range", ?_⟩
      rw [List.foldlM_cons, addWeighted_error acc p.1 p.2 (Nat.not_le.mp hp)]
      rfl

lemma mem_zip_replicate {α β : Type} (es : List α) (c : β) (f : α)
    (hf : f ∈ es) : (f, c) ∈ es.zip (List.replicate es.length c) := by
  induction es with
  | nil => simp at hf
  | cons e es ih =>
    rcases List.mem_cons.mp hf with rfl | hf2
    · simp [List.replicate_succ]
    · simp only [List.length_cons, List.replicate_succ, List.zip_cons_cons]
      exact List.mem_cons_of_mem _ (ih hf2)

lemma sum_zip_replicate (ses : List (List ℚ)) (c : ℚ) (i : Nat) :
    ((ses.zip (List.replicate ses.length c)).map
        (fun p => p.1.getD i 0 * p.2)).sum =
      (ses.map (fun s => c * s.getD i 0)).sum := by
  induction ses with
  | nil => simp
  | cons s ses ih =>
    simp only [List.length_cons, List.replicate_succ, List.zip_cons_cons,
      List.map_cons, List.sum_cons, ih]
    ring

lemma zipWith_sub_zero (p n : List ℚ) (h : p.length ≤ n.length) :
    List.zipWith (fun a b => a - b * 0) p n = p := by
  induction p generalizing n with
  | nil => simp
  | cons a p ih =>
    cases n with
    | nil => simp at h
    | cons b n =>
      have hh : a - b * 0 = a := by ring
      simp only [List.zipWith_cons_cons, hh, List.cons.injEq, true_and]
      exact ih n (by simpa using h)

/-! Helper lemmas about the stable descending sort. -/

lemma mem_insertByScoreDesc (g x : GiftRecommendation)
    (l : List GiftRecommendation) :
    x ∈ insertByScoreDesc g l ↔ x = g ∨ x ∈ l := by
  induction l with
  | nil => simp [insertByScoreDesc]
  | cons h t ih =>
    by_cases hc : h.relevance_score < g.relevance_score
    · simp only [insertByScoreDesc, if_pos hc, List.mem_cons]
    · simp only [insertByScoreDesc, if_neg hc, List.mem_cons, ih]
      tauto

lemma pairwise_insertByScoreDesc (g : GiftRecommendation)
    (l : List GiftRecommendation)
    (hl : l.Pairwise (fun a b => b.relevance_score ≤ a.relevance_score)) :
    (insertByScoreDesc g l).Pairwise
      (fun a b => b.relevance_score ≤ a.relevance_score) := by
  induction l with
  | nil => simp [insertByScoreDesc]
  | cons h t ih =>
    rw [List.pairwise_cons] at hl
    obtain ⟨hh, ht⟩ := hl
    by_cases hc : h.relevance_score < g.relevance_score
    · simp only [insertByScoreDesc, if_pos hc]
      rw [List.pairwise_cons]
      constructor
      · intro x hx
        rcases List.mem_cons.mp hx with rfl | hx2
        · exact le_of_lt hc
        · exact le_trans (hh x hx2) (le_of_lt hc)
      · rw [List.pairwise_cons]
        exact ⟨hh, ht⟩
    · simp only [insertByScoreDesc, if_neg hc]
      rw [List.pairwise_cons]
      constructor
      · intro x hx
        rcases (mem_insertByScoreDesc g x t).mp hx with rfl | hx2
        · exact le_of_not_lt hc
        · exact hh x hx2
      · exact ih ht

lemma perm_insertByScoreDesc (g : GiftRecommendation)
    (l : List GiftRecommendation) : (insertByScoreDesc g l).Perm (g :: l) := by
  induction l with
  | nil => simp [insertByScoreDesc]
  | cons h t ih =>
    by_cases hc : h.relevance_score < g.relevance_score
    · simp [insertByScoreDesc, hc]
    · simp only [insertByScoreDesc, if_neg hc]
      exact (ih.cons h).trans (List.Perm.swap g h t)

lemma perm_foldl_insert (l acc : List GiftRecommendation) :
    (l.foldl (fun acc g => insertByScoreDesc g acc) acc).Perm (acc ++ l) := by
  induction l generalizing acc with
  | nil => simp
  | cons x l ih =>
    simp only [List.foldl_cons]
    refine (ih (insertByScoreDesc x acc)).trans ?_
    refine (List.Perm.append_right l (perm_insertByScoreDesc x acc)).trans ?_
    exact List.perm_middle.symm

lemma perm_sortByScoreDesc (l : List GiftRecommendation) :
    (sortByScoreDesc l).Perm l := by
  simpa using perm_foldl_insert l []

lemma pairwise_foldl_insert (l acc : List GiftRecommendation)
    (hacc : acc.Pairwise (fun a b => b.relevance_score ≤ a.relevance_score)) :
    (l.foldl (fun acc g => insertByScoreDesc g acc) acc).Pairwise
      (fun a b => b.relevance_score ≤ a.relevance_score) := by
  induction l generalizing acc with
  | nil => exact hacc
  | cons x l ih =>
    exact ih (insertByScoreDesc x acc) (pairwise_insertByScoreDesc x acc hacc)

lemma pairwise_sortByScoreDesc (l : List GiftRecommendation) :
    (sortByScoreDesc l).Pairwise
      (fun a b => b.relevance_score ≤ a.relevance_score) :=
  pairwise_foldl_insert l [] (by simp)

lemma filter_insertByScoreDesc (s : ℚ) (g : GiftRecommendation)
    (l : List GiftRecommendation)
    (hl : l.Pairwise (fun a b => b.relevance_score ≤ a.relevance_score)) :
    (insertByScoreDesc g l).filter (fun x => decide (x.relevance_score = s)) =
      l.filter (fun x => decide (x.relevance_score = s)) ++
        (if g.relevance_score = s then [g] else []) := by
  induction l with
  | nil =>
    by_cases hg : g.relevance_score = s <;>
      simp [insertByScoreDesc, List.filter, hg]
  | cons h t ih =>
    rw [List.pairwise_cons] at hl
    obtain ⟨hh, ht⟩ := hl
    by_cases hc : h.relevance_score < g.relevance_score
    · simp only [insertByScoreDesc, if_pos hc]
      by_cases hg : g.relevance_score = s
      · have hnone : ∀ x ∈ h :: t, ¬ x.relevance_score = s := by
          intro x hx
          rcases List.mem_cons.mp hx with rfl | hx2
          · intro hxs; rw [hxs] at hc; exact absurd hg (ne_of_gt hc)
          · intro hxs
            have hlt : x.relevance_score < g.relevance_score :=
              lt_of_le_of_lt (hh x hx2) hc
            rw [hxs, hg] at hlt
            exact lt_irrefl s hlt
        have hfilt : (h :: t).filter (fun x => decide (x.relevance_score = s))
            = [] := by
          rw [List.filter_eq_nil_iff]
          intro x hx
          simpa using hnone x hx
        rw [List.filter_cons_of_pos (by simpa using hg), hfilt, if_pos hg]
        rfl
      · rw [List.filter_cons_of_neg (by simpa using hg), if_neg hg,
          List.append_nil]
    · simp only [insertByScoreDesc, if_neg hc]
      by_cases hhs : h.relevance_score = s
      · rw [List.filter_cons_of_pos (by simpa using hhs),
          List.filter_cons_of_pos (by simpa using hhs), ih ht,
          List.cons_append]
      · rw [List.filter_cons_of_neg (by simpa using hhs),
          List.filter_cons_of_neg (by simpa using hhs), ih ht]

lemma filter_foldl_insert (s : ℚ) (l acc : List GiftRecommendation)
    (hacc : acc.Pairwise (fun a b => b.relevance_score ≤ a.relevance_score)) :
    (l.foldl (fun acc g => insertByScoreDesc g acc) acc).filter
        (fun x => decide (x.relevance_score = s)) =
      acc.filter (fun x => decide (x.relevance_score = s)) ++
        l.filter (fun x => decide (x.relevance_score = s)) := by
  induction l generalizing acc with
  | nil => simp
  | cons x l ih =>
    simp only [List.foldl_cons]
    rw [ih (insertByScoreDesc x acc) (pairwise_insertByScoreDesc x acc hacc),
      filter_insertByScoreDesc s x acc hacc]
    by_cases hx : x.relevance_score = s
    · rw [if_pos hx, List.filter_cons_of_pos (by simpa using hx),
        List.append_assoc]
      rfl
    · rw [if_neg hx, List.filter_cons_of_neg (by simpa using hx),
        List.append_nil]

lemma filter_sortByScoreDesc (s : ℚ) (l : List GiftRecommendation) :
    (sortByScoreDesc l).filter (fun x => decide (x.relevance_score = s)) =
      l.filter (fun x => decide (x.relevance_score = s)) := by
  simpa using filter_foldl_insert s l [] (by simp)

lemma filter_take_ex {α : Type} (p : α → Bool) (l : List α) (n : Nat) :
    ∃ m, (l.take n).filter p = (l.filter p).take m := by
  induction l generalizing n with
  | nil => exact ⟨0, by simp⟩
  | cons x l ih =>
    cases n with
    | zero => exact ⟨0, by simp⟩
    | succ n =>
      obtain ⟨m, hm⟩ := ih n
      by_cases hx : p x
      · refine ⟨m + 1, ?_⟩
        rw [List.take_succ_cons, List.filter_cons_of_pos hx,
          List.filter_cons_of_pos hx, hm, List.take_succ_cons]
      · refine ⟨m, ?_⟩
        rw [List.take_succ_cons, List.filter_cons_of_neg hx,
          List.filter_cons_of_neg hx, hm]

/-! Characterization lemmas for the pipeline. -/

lemma computeQueryVector_ok_parts (embed : String → List ℚ)
    (store : VectorStoreModel) (request : RecommendationRequest)
    (x : (List ℚ × Bool × List String) × Nat)
    (h : computeQueryVector embed store request = .ok x) :
    x.2 = 1 ∧
    x.1.2.1 = (!request.starred_gift_ids.isEmpty &&
      !(store.get_by_ids request.starred_gift_ids).isEmpty) ∧
    x.1.2.2 = (if request.starred_gift_ids.isEmpty ||
        (store.get_by_ids request.starred_gift_ids).isEmpty then ([] : List String)
      else ((store.get_by_ids request.starred_gift_ids).map
        (fun g => g.id)).dedup) := by
  by_cases h1 : request.starred_gift_ids.isEmpty
  · simp only [computeQueryVector, h1, if_pos] at h
    cases h
    simp [h1]
  · by_cases h2 : (store.get_by_ids request.starred_gift_ids).isEmpty
    · simp only [computeQueryVector, h1, h2] at h
      cases h
      simp [h1, h2]
    · simp only [computeQueryVector, h1, h2] at h
      by_cases h3 : (((store.get_by_ids request.starred_gift_ids).filter
          (fun g => !g.embedding.isEmpty)).map (fun g => g.embedding)).isEmpty
      · simp only [h3, if_pos, if_true, Bool.false_eq_true, if_false] at h
        cases h
        simp [h1, h2]
      · simp only [h3, Bool.false_eq_true, if_false] at h
        set bl := blend_embeddings
          (embed request.recipient_description ::
            ((store.get_by_ids request.starred_gift_ids).filter
              (fun g => !g.embedding.isEmpty)).map (fun g => g.embedding))
          (some (((1 : ℚ) / 2) ::
            List.replicate
              (((store.get_by_ids request.starred_gift_ids).filter
                (fun g => !g.embedding.isEmpty)).map
                  (fun g => g.embedding)).length
              ((1 : ℚ) / 2 /
                (((store.get_by_ids request.starred_gift_ids).filter
                  (fun g => !g.embedding.isEmpty)).map
                    (fun g => g.embedding)).length))) with hbl
        cases hblv : bl with
        | error e => rw [hblv] at h; cases h
        | ok v =>
          rw [hblv] at h
          cases h
          simp [h1, h2]

lemma get_recommendations_of_compute (embed : String → List ℚ)
    (store : VectorStoreModel) (request : RecommendationRequest)
    (qv : List ℚ) (b : Bool) (ids : List String) (c : Nat)
    (hq : computeQueryVector embed store request = .ok ((qv, b, ids), c)) :
    get_recommendations embed store request = .ok
      (responseFor store qv b ids (effectiveLimit request)
        (effectiveLimit request + ids.length), c) := by
  simp only [get_recommendations, hq]

lemma get_recommendations_inv (embed : String → List ℚ)
    (store : VectorStoreModel) (request : RecommendationRequest)
    (res : RecommendationResponse × Nat)
    (h : get_recommendations embed store request = .ok res) :
    ∃ qv b ids c,
      computeQueryVector embed store request = .ok ((qv, b, ids), c) ∧
      res = (responseFor store qv b ids (effectiveLimit request)
        (effectiveLimit request + ids.length), c) := by
  cases hc : computeQueryVector embed store request with
  | error e =>
    rw [get_recommendations, hc] at h
    cases h
  | ok x =>
    obtain ⟨⟨qv, b, ids⟩, c⟩ := x
    refine ⟨qv, b, ids, c, rfl, ?_⟩
    have h2 := get_recommendations_of_compute embed store request qv b ids c hc
    rw [h2] at h
    cases h
    rfl

/-- Every recommendation produced by `retrievedGifts` carries the id of the
underlying candidate gift, which the filter guarantees is not starred. -/
lemma retrievedGifts_mem_id (store : VectorStoreModel) (qv : List ℚ)
    (ids : List String) (sl : Nat) (rec : GiftRecommendation)
    (h : rec ∈ retrievedGifts store qv ids sl) : ¬ rec.id ∈ ids := by
  simp only [retrievedGifts, List.mem_map, List.mem_filter] at h
  obtain ⟨p, ⟨_, hp⟩, rfl⟩ := h
  simpa [gift_to_recommendation] using hp

/-! Evaluation lemmas for `blend_embeddings`. -/

lemma blend_embeddings_single (e : List ℚ) (w : Option (List ℚ)) :
    blend_embeddings [e] w = .ok e := rfl

lemma blend_embeddings_nil_none :
    blend_embeddings [] none =
      .error "ZeroDivisionError: float division by zero" := rfl

lemma blend_embeddings_nil_some (ws : List ℚ) :
    blend_embeddings [] (some ws) =
      .error "IndexError: list index out of range" := rfl

lemma blend_embeddings_cons_some (q : List ℚ) (ses : List (List ℚ))
    (ws : List ℚ) (hne : ses ≠ []) :
    blend_embeddings (q :: ses) (some ws) =
      ((q :: ses).zip ws).foldlM
        (fun blended p => addWeighted blended p.1 p.2)
        (List.replicate q.length (0 : ℚ)) := by
  have hlen : ¬ (q :: ses).length = 1 := by
    simp only [List.length_cons, Nat.add_left_eq_self]
    intro h
    exact hne (List.length_eq_zero.mp h)
  rw [blend_embeddings, if_neg hlen]
  rfl

lemma blend_embeddings_cons_none (q : List ℚ) (ses : List (List ℚ))
    (hne : ses ≠ []) :
    blend_embeddings (q :: ses) none =
      ((q :: ses).zip
          (List.replicate (q :: ses).length
            ((1 : ℚ) / ((q :: ses).length : ℚ)))).foldlM
        (fun blended p => addWeighted blended p.1 p.2)
        (List.replicate q.length (0 : ℚ)) := by
  have hlen : ¬ (q :: ses).length = 1 := by
    simp only [List.length_cons, Nat.add_left_eq_self]
    intro h
    exact hne (List.length_eq_zero.mp h)
  have hlen0 : ¬ (q :: ses).length = 0 := by simp
  rw [blend_embeddings, if_neg hlen]
  simp only [if_neg hlen0]
  rfl

/-- C1: when at least one starred id resolves to a catalog item (and, as the
Gift entity guarantees, every resolved item carries a non-empty embedding of
the query's dimension), the query vector used for the similarity search is
the blend `0.5 * query[i] + Σ_k (0.5 / K) * starred_k[i]` over the K resolved
starred items — the original query keeps weight exactly 0.5 regardless of K. -/
theorem starred_blend_half_weight (embed : String → List ℚ)
    (store : VectorStoreModel) (request : RecommendationRequest)
    (hne : ¬ request.starred_gift_ids = [])
    (hres : ¬ store.get_by_ids request.starred_gift_ids = [])
    (hemb : ∀ g ∈ store.get_by_ids request.starred_gift_ids,
      ¬ g.embedding = [] ∧
        g.embedding.length = (embed request.recipient_description).length) :
    ∃ r, computeQueryVector embed store request =
        .ok ((r, true,
          ((store.get_by_ids request.starred_gift_ids).map
            (fun g => g.id)).dedup), 1) ∧
      r.length = (embed request.recipient_description).length ∧
      ∀ i, i < (embed request.recipient_description).length →
        r.getD i 0 =
          (1 : ℚ) / 2 * (embed request.recipient_description).getD i 0 +
            ((store.get_by_ids request.starred_gift_ids).map
              (fun g =>
                (1 : ℚ) / 2 /
                  ((store.get_by_ids request.starred_gift_ids).length : ℚ) *
                  g.embedding.getD i 0)).sum := by
  set q := embed request.recipient_description with hq
  set gs := store.get_by_ids request.starred_gift_ids with hgs
  have h1 : ¬ request.starred_gift_ids.isEmpty = true := by
    simpa [List.isEmpty_iff] using hne
  have h2 : ¬ gs.isEmpty = true := by
    simpa [List.isEmpty_iff] using hres
  have hfilt : gs.filter (fun g => !g.embedding.isEmpty) = gs := by
    rw [List.filter_eq_self]
    intro g hg
    simpa [List.isEmpty_iff] using (hemb g hg).1
  have hsesne : ¬ gs.map (fun g => g.embedding) = [] := by
    simpa [List.map_eq_nil_iff] using hres
  have h3 : ¬ (gs.map (fun g => g.embedding)).isEmpty = true := by
    simpa [List.isEmpty_iff] using hsesne
  set ses := gs.map (fun g => g.embedding) with hses
  set cst := (1 : ℚ) / 2 / (ses.length : ℚ) with hcst
  have hpairs : ∀ p ∈ (q :: ses).zip
      (((1 : ℚ) / 2) :: List.replicate ses.length cst),
      (List.replicate q.length (0 : ℚ)).length ≤ p.1.length := by
    intro p hp
    rw [List.length_replicate]
    rw [List.zip_cons_cons] at hp
    rcases List.mem_cons.mp hp with hp1 | hp2
    · rw [hp1]
    · obtain ⟨s, w⟩ := p
      have hs : s ∈ ses := (List.of_mem_zip hp2).1
      obtain ⟨g, hg, hge⟩ := List.mem_map.mp hs
      simp only
      rw [← hge, (hemb g hg).2]
  obtain ⟨r, hr, hrlen, hrget⟩ :=
    foldAdd_ok ((q :: ses).zip (((1 : ℚ) / 2) :: List.replicate ses.length cst))
      (List.replicate q.length (0 : ℚ)) hpairs
  have hblend : blend_embeddings (q :: ses)
      (some (((1 : ℚ) / 2) :: List.replicate ses.length cst)) = .ok r := by
    rw [blend_embeddings_cons_some q ses _ hsesne]
    exact hr
  refine ⟨r, ?_, ?_, ?_⟩
  · simp only [computeQueryVector, h1, h2, ← hgs, hfilt, ← hses, h3,
      Bool.false_eq_true, if_false, ← hq, ← hcst]
    rw [hblend]
  · rw [hrlen, List.length_replicate]
  · intro i hi
    have hi2 : i < (List.replicate q.length (0 : ℚ)).length := by
      rw [List.length_replicate]; exact hi
    have hz : (List.replicate q.length (0 : ℚ)).getD i 0 = 0 := by
      rw [List.getD_eq_getElem _ _ hi2, List.getElem_replicate]
    have := hrget i (by rw [List.length_replicate]; exact hi)
    rw [hz, List.zip_cons_cons, List.map_cons, List.sum_cons,
      sum_zip_replicate ses cst i] at this
    rw [this, hses, List.map_map]
    have hmap : (gs.map ((fun s => cst * s.getD i 0) ∘ fun g => g.embedding))
        = gs.map (fun g =>
          (1 : ℚ) / 2 / ((gs.length : ℚ)) * g.embedding.getD i 0) := by
      apply List.map_congr_left
      intro g _
      simp only [Function.comp_apply, hcst, hses, List.length_map]
    rw [hmap]
    ring

lemma getD_zipWith_sub (p n : List ℚ) (w : ℚ) (i : Nat)
    (h : p.length ≤ n.length) (hi : i < p.length) :
    (List.zipWith (fun a b => a - b * w) p n).getD i 0 =
      p.getD i 0 - n.getD i 0 * w := by
  have hiz : i < (List.zipWith (fun a b => a - b * w) p n).length := by
    simp only [List.length_zipWith]
    omega
  have hin : i < n.length := lt_of_lt_of_le hi h
  rw [List.getD_eq_getElem _ _ hiz, List.getD_eq_getElem _ _ hi,
    List.getD_eq_getElem _ _ hin, List.getElem_zipWith]

/-- C7: on equal-length vectors, `subtract_embedding` with weight 0 returns
the positive vector exactly, and in general the result is pointwise
`positive[i] - negative[i] * negative_weight` (the Python default for the
weight being 0.3). -/
theorem subtract_pointwise (positive negative : List ℚ)
    (hlen : positive.length = negative.length) :
    subtract_embedding positive negative 0 = .ok positive ∧
    ∀ w, ∃ r, subtract_embedding positive negative w = .ok r ∧
      r.length = positive.length ∧
      ∀ i, i < positive.length →
        r.getD i 0 = positive.getD i 0 - negative.getD i 0 * w := by
  have hle : positive.length ≤ negative.length := le_of_eq hlen
  constructor
  · rw [subtract_embedding, if_pos hle, zipWith_sub_zero positive negative hle]
  · intro w
    refine ⟨List.zipWith (fun p n => p - n * w) positive negative, ?_, ?_, ?_⟩
    · rw [subtract_embedding, if_pos hle]
    · simp only [List.length_zipWith]
      omega
    · intro i hi
      exact getD_zipWith_sub positive negative w i hle hi

/-- C7 witness: the spec's concrete example,
`subtract([0.5, 0.3, 0.8], [1, 1, 1], 0.0) = [0.5, 0.3, 0.8]`. -/
theorem subtract_pointwise_witness :
    ([(1 : ℚ) / 2, 3 / 10, 4 / 5] : List ℚ).length = ([1, 1, 1] : List ℚ).length ∧
    subtract_embedding [(1 : ℚ) / 2, 3 / 10, 4 / 5] [1, 1, 1] 0 =
      .ok [(1 : ℚ) / 2, 3 / 10, 4 / 5] :=
  ⟨rfl, (subtract_pointwise [(1 : ℚ) / 2, 3 / 10, 4 / 5] [1, 1, 1] rfl).1⟩

/-- C2: without negative keywords the embedding provider is invoked exactly
once; with negative keywords exactly twice, the second call embedding the
negative keywords and the resulting vector being subtracted from the query
vector with weight 0.3.  The keyword-style flow is modelled from the spec
(only its tests are in the repository); the last conjunct covers the
description-style flow present in src, whose provider call count is always
one. -/
theorem negative_keywords_provider_calls (embed : String → List ℚ)
    (request : KeywordRequest) :
    (request.negative_keywords = none →
      composeKeywordQueryVector embed request = (.ok (embed request.keywords), 1)) ∧
    (∀ nk, request.negative_keywords = some nk →
      (composeKeywordQueryVector embed request).2 = 2 ∧
      (composeKeywordQueryVector embed request).1 =
        subtract_embedding (embed request.keywords) (embed nk) ((3 : ℚ) / 10) ∧
      ((embed request.keywords).length = (embed nk).length →
        ∃ r, (composeKeywordQueryVector embed request).1 = .ok r ∧
          r.length = (embed request.keywords).length ∧
          ∀ i, i < (embed request.keywords).length →
            r.getD i 0 = (embed request.keywords).getD i 0 -
              (embed nk).getD i 0 * ((3 : ℚ) / 10))) ∧
    (∀ (store : VectorStoreModel) (req : RecommendationRequest)
        (res : RecommendationResponse × Nat),
      get_recommendations embed store req = .ok res → res.2 = 1) := by
  refine ⟨?_, ?_, ?_⟩
  · intro h
    simp [composeKeywordQueryVector, h]
  · intro nk h
    refine ⟨by simp [composeKeywordQueryVector, h], by simp [composeKeywordQueryVector, h], ?_⟩
    intro hlen
    have hle : (embed request.keywords).length ≤ (embed nk).length :=
      le_of_eq hlen
    refine ⟨List.zipWith (fun p n => p - n * ((3 : ℚ) / 10))
      (embed request.keywords) (embed nk), ?_, ?_, ?_⟩
    · simp only [composeKeywordQueryVector, h]
      rw [subtract_embedding, if_pos hle]
    · simp only [List.length_zipWith]
      omega
    · intro i hi
      exact getD_zipWith_sub (embed request.keywords) (embed nk)
        ((3 : ℚ) / 10) i hle hi
  · intro store req res h
    obtain ⟨qv, b, ids, c, hc, hres⟩ :=
      get_recommendations_inv embed store req res h
    have hparts := computeQueryVector_ok_parts embed store req ((qv, b, ids), c) hc
    rw [hres]
    exact hparts.1

/-- C2 witness: a request without negative keywords makes one provider call,
and one with negative keywords makes two. -/
theorem negative_keywords_provider_calls_witness :
    composeKeywordQueryVector (fun _ => [(1 : ℚ)]) ⟨"coffee lover", none⟩ =
      (.ok ((fun _ => [(1 : ℚ)]) "coffee lover"), 1) ∧
    (composeKeywordQueryVector (fun _ => [(1 : ℚ)])
      ⟨"coffee lover", some "espresso machine"⟩).2 = 2 :=
  ⟨(negative_keywords_provider_calls (fun _ => [(1 : ℚ)])
      ⟨"coffee lover", none⟩).1 rfl,
   ((negative_keywords_provider_calls (fun _ => [(1 : ℚ)])
      ⟨"coffee lover", some "espresso machine"⟩).2.1 "espresso machine" rfl).1⟩

/-- C5 counterexample: blending the mismatched-length vectors `[1]` and
`[2, 3]` does not fail — the loop only reads the first vector's dimension, so
the extra component of `[2, 3]` is silently ignored and a computed result
`[0.5*1 + 0.5*2] = [1.5]` is returned. -/
theorem blend_mismatch_silent_counterexample :
    blend_embeddings [[(1 : ℚ)], [2, 3]] none = .ok [(3 : ℚ) / 2] ∧
    ∀ msg, blend_embeddings [[(1 : ℚ)], [2, 3]] none ≠ .error msg := by
  have h : blend_embeddings [[(1 : ℚ)], [2, 3]] none = .ok [(3 : ℚ) / 2] := by
    rw [blend_embeddings_cons_none [(1 : ℚ)] [[2, 3]] (by simp)]
    norm_num [List.foldlM, addWeighted, Bind.bind, Except.bind, Pure.pure,
      Except.pure]
  exact ⟨h, fun msg hmsg => by rw [h] at hmsg; cases hmsg⟩

/-- C5 amended: an empty vector list does make Blend fail fast (with a raw
ZeroDivisionError or IndexError rather than a contract-specific message), and
a later vector shorter than the first also fails; but a later vector longer
than the first is silently accommodated — the computation uses only the first
vector's dimension and returns a result. -/
theorem blend_failure_modes :
    (∀ w, ∃ msg, blend_embeddings [] w = .error msg) ∧
    (∀ (e : List ℚ) (es : List (List ℚ)), es ≠ [] →
      (∃ f ∈ es, f.length < e.length) →
      ∃ msg, blend_embeddings (e :: es) none = .error msg) ∧
    (∀ (e : List ℚ) (es : List (List ℚ)), es ≠ [] →
      (∀ f ∈ es, e.length ≤ f.length) →
      ∃ r, blend_embeddings (e :: es) none = .ok r) := by
  refine ⟨?_, ?_, ?_⟩
  · intro w
    cases w with
    | none => exact ⟨_, blend_embeddings_nil_none⟩
    | some ws => exact ⟨_, blend_embeddings_nil_some ws⟩
  · intro e es hne hex
    rw [blend_embeddings_cons_none e es hne]
    apply foldAdd_error
    obtain ⟨f, hf, hflt⟩ := hex
    refine ⟨(f, (1 : ℚ) / ((e :: es).length : ℚ)), ?_, ?_⟩
    · simp only [List.length_cons, List.replicate_succ, List.zip_cons_cons]
      exact List.mem_cons_of_mem _ (mem_zip_replicate es _ f hf)
    · simpa using hflt
  · intro e es hne hall
    rw [blend_embeddings_cons_none e es hne]
    have hcond : ∀ p ∈ (e :: es).zip (List.replicate (e :: es).length
        ((1 : ℚ) / ((e :: es).length : ℚ))),
        (List.replicate e.length (0 : ℚ)).length ≤ p.1.length := by
      intro p hp
      rw [List.length_replicate]
      rw [List.length_cons, List.replicate_succ, List.zip_cons_cons] at hp
      rcases List.mem_cons.mp hp with hp1 | hp2
      · rw [hp1]
      · exact hall p.1 (List.of_mem_zip hp2).1
    obtain ⟨r, hr, _, _⟩ := foldAdd_ok
      ((e :: es).zip (List.replicate (e :: es).length
        ((1 : ℚ) / ((e :: es).length : ℚ))))
      (List.replicate e.length (0 : ℚ)) hcond
    exact ⟨r, hr⟩

/-- C5 witness for the amended claim: the empty list fails, a shorter later
vector fails, and a longer later vector is silently handled. -/
theorem blend_failure_modes_witness :
    (∃ msg, blend_embeddings [] none = .error msg) ∧
    (∃ msg, blend_embeddings [[(1 : ℚ), 2], [3]] none = .error msg) ∧
    (∃ r, blend_embeddings [[(1 : ℚ)], [2, 3]] none = .ok r) :=
  ⟨blend_failure_modes.1 none,
   blend_failure_modes.2.1 [(1 : ℚ), 2] [[3]] (by simp)
     ⟨[3], by simp, by simp⟩,
   blend_failure_modes.2.2 [(1 : ℚ)] [[2, 3]] (by simp)
     (by intro f hf; rw [List.mem_singleton.mp hf]; simp)⟩

/-- When no starred id resolves (or none was sent), the query-vector stage
returns the plain query embedding with no boost and no ids. -/
lemma computeQueryVector_no_starred (embed : String → List ℚ)
    (store : VectorStoreModel) (request : RecommendationRequest)
    (h : store.get_by_ids request.starred_gift_ids = []) :
    computeQueryVector embed store request =
      .ok ((embed request.recipient_description, false, []), 1) := by
  by_cases h1 : request.starred_gift_ids.isEmpty
  · simp [computeQueryVector, h1]
  · simp [computeQueryVector, h1, h]

/-- C3: when the request's starred ids are non-empty, no recommendation in
the final output carries the id of any resolved starred item, whatever the
similarity search or the popularity fallback returned. -/
theorem starred_never_recommended (embed : String → List ℚ)
    (store : VectorStoreModel) (request : RecommendationRequest)
    (res : RecommendationResponse × Nat)
    (hne : ¬ request.starred_gift_ids = [])
    (hok : get_recommendations embed store request = .ok res) :
    ∀ rec ∈ res.1.gifts,
      ¬ rec.id ∈ (store.get_by_ids request.starred_gift_ids).map
        (fun g => g.id) := by
  obtain ⟨qv, b, ids, c, hc, hres⟩ :=
    get_recommendations_inv embed store request res hok
  have hparts := computeQueryVector_ok_parts embed store request _ hc
  intro rec hrec
  rw [hres] at hrec
  simp only [responseFor] at hrec
  have h1 : rec ∈ sortByScoreDesc
      (retrievedGifts store qv ids (effectiveLimit request + ids.length)) :=
    (List.take_sublist _ _).mem hrec
  have h2 : rec ∈ retrievedGifts store qv ids
      (effectiveLimit request + ids.length) :=
    (perm_sortByScoreDesc _).mem_iff.mp h1
  have h3 := retrievedGifts_mem_id store qv ids _ rec h2
  by_cases hgs : store.get_by_ids request.starred_gift_ids = []
  · simp [hgs]
  · have he1 : request.starred_gift_ids.isEmpty = false := by
      simpa [List.isEmpty_iff] using hne
    have he2 : (store.get_by_ids request.starred_gift_ids).isEmpty = false := by
      simpa [List.isEmpty_iff] using hgs
    have hids := hparts.2.2
    rw [he1, he2] at hids
    simp only [Bool.or_self, Bool.false_eq_true, if_false] at hids
    rw [hids] at h3
    simpa [List.mem_dedup] using h3

/-- C8: the query context's `total_searched` always equals the store's total
count — the count is recorded before the fallback decision, on every path. -/
theorem total_searched_is_store_count (embed : String → List ℚ)
    (store : VectorStoreModel) (request : RecommendationRequest)
    (res : RecommendationResponse × Nat)
    (hok : get_recommendations embed store request = .ok res) :
    res.1.query_context.total_searched = store.get_total_count := by
  obtain ⟨qv, b, ids, c, hc, hres⟩ :=
    get_recommendations_inv embed store request res hok
  rw [hres]
  rfl

/-- C4: when the similarity search returns no candidates, the request still
succeeds, `fallback_used` is true, and the recommendations are produced from
the store's popular-items listing requested with the same limit the
similarity search used. -/
theorem empty_search_uses_popular (embed : String → List ℚ)
    (store : VectorStoreModel) (request : RecommendationRequest)
    (qv : List ℚ) (b : Bool) (ids : List String) (c : Nat)
    (hq : computeQueryVector embed store request = .ok ((qv, b, ids), c))
    (hempty : store.search_similar qv (effectiveLimit request + ids.length)
      ((1 : ℚ) / 2) = []) :
    ∃ res, get_recommendations embed store request = .ok (res, c) ∧
      res.query_context.fallback_used = true ∧
      res.gifts = (sortByScoreDesc
        (((store.get_popular (effectiveLimit request + ids.length)).filter
          (fun p => decide (¬ p.1.id ∈ ids))).map
            (fun p => gift_to_recommendation p.1 p.2))).take
        (effectiveLimit request) := by
  have hs : store.search_similar qv (effectiveLimit request + ids.length)
      ((2 : ℚ)⁻¹) = [] := by
    rw [← one_div]
    exact hempty
  refine ⟨responseFor store qv b ids (effectiveLimit request)
    (effectiveLimit request + ids.length),
    get_recommendations_of_compute embed store request qv b ids c hq, ?_, ?_⟩
  · simp [responseFor, hempty, hs]
  · simp [responseFor, retrievedGifts, hempty, hs]

/-- C10: on the fallback path, `above_threshold` is computed from the final
gifts — which come from the popularity listing — by the same `score ≥ 0.5`
comparison the similarity search used, so it can be nonzero even though no
item passed the similarity search. -/
theorem fallback_above_threshold (embed : String → List ℚ)
    (store : VectorStoreModel) (request : RecommendationRequest)
    (qv : List ℚ) (b : Bool) (ids : List String) (c : Nat)
    (hq : computeQueryVector embed store request = .ok ((qv, b, ids), c))
    (hempty : store.search_similar qv (effectiveLimit request + ids.length)
      ((1 : ℚ) / 2) = []) :
    ∃ res, get_recommendations embed store request = .ok (res, c) ∧
      res.query_context.fallback_used = true ∧
      res.query_context.above_threshold =
        (res.gifts.filter
          (fun g => decide ((1 : ℚ) / 2 ≤ g.relevance_score))).length ∧
      res.gifts = (sortByScoreDesc
        (((store.get_popular (effectiveLimit request + ids.length)).filter
          (fun p => decide (¬ p.1.id ∈ ids))).map
            (fun p => gift_to_recommendation p.1 p.2))).take
        (effectiveLimit request) := by
  have hs : store.search_similar qv (effectiveLimit request + ids.length)
      ((2 : ℚ)⁻¹) = [] := by
    rw [← one_div]
    exact hempty
  refine ⟨responseFor store qv b ids (effectiveLimit request)
    (effectiveLimit request + ids.length),
    get_recommendations_of_compute embed store request qv b ids c hq, ?_, ?_, ?_⟩
  · simp [responseFor, hempty, hs]
  · simp [responseFor]
  · simp [responseFor, retrievedGifts, hempty, hs]

/-- C6: the output is sorted by `relevance_score` descending, and the sort is
stable — for every score, the output items of that score form a prefix of
the retrieval-ordered items of that score, so equal-score items keep their
original retrieval order. -/
theorem output_sorted_stable (embed : String → List ℚ)
    (store : VectorStoreModel) (request : RecommendationRequest)
    (res : RecommendationResponse × Nat)
    (qv : List ℚ) (b : Bool) (ids : List String) (c : Nat)
    (hq : computeQueryVector embed store request = .ok ((qv, b, ids), c))
    (hok : get_recommendations embed store request = .ok res) :
    res.1.gifts.Pairwise
      (fun a b => b.relevance_score ≤ a.relevance_score) ∧
    ∀ s : ℚ, ∃ m,
      res.1.gifts.filter (fun g => decide (g.relevance_score = s)) =
        ((retrievedGifts store qv ids
          (effectiveLimit request + ids.length)).filter
          (fun g => decide (g.relevance_score = s))).take m := by
  obtain ⟨qv2, b2, ids2, c2, hc2, hres⟩ :=
    get_recommendations_inv embed store request res hok
  rw [hq] at hc2
  have heq : qv = qv2 ∧ b = b2 ∧ ids = ids2 ∧ c = c2 := by
    have h2 := hc2
    simp only [Except.ok.injEq, Prod.mk.injEq] at h2
    exact ⟨h2.1.1, h2.1.2.1, h2.1.2.2, h2.2⟩
  obtain ⟨rfl, rfl, rfl, rfl⟩ := heq
  rw [hres]
  constructor
  · simp only [responseFor]
    exact (pairwise_sortByScoreDesc _).sublist (List.take_sublist _ _)
  · intro s
    simp only [responseFor]
    obtain ⟨m, hm⟩ := filter_take_ex
      (fun g => decide (g.relevance_score = s))
      (sortByScoreDesc
        (retrievedGifts store qv ids (effectiveLimit request + ids.length)))
      (effectiveLimit request)
    refine ⟨m, ?_⟩
    rw [hm, filter_sortByScoreDesc]

/-- C9: starred ids that do not resolve are silently dropped — the request
still completes — and `starred_boost_applied` is true exactly when starred
ids were sent and at least one resolved. -/
theorem unresolved_starred_silent (embed : String → List ℚ)
    (store : VectorStoreModel) (request : RecommendationRequest) :
    (∀ res, get_recommendations embed store request = .ok res →
      (res.1.query_context.starred_boost_applied = true ↔
        (¬ request.starred_gift_ids = [] ∧
          ¬ store.get_by_ids request.starred_gift_ids = []))) ∧
    (store.get_by_ids request.starred_gift_ids = [] →
      ∃ res, get_recommendations embed store request = .ok res ∧
        res.1.query_context.starred_boost_applied = false) := by
  constructor
  · intro res hok
    obtain ⟨qv, b, ids, c, hc, hres⟩ :=
      get_recommendations_inv embed store request res hok
    have hparts := computeQueryVector_ok_parts embed store request _ hc
    have hb : b = (!request.starred_gift_ids.isEmpty &&
        !(store.get_by_ids request.starred_gift_ids).isEmpty) := hparts.2.1
    rw [hres]
    simp only [responseFor]
    rw [hb]
    simp [List.isEmpty_iff]
  · intro h
    have hc := computeQueryVector_no_starred embed store request h
    refine ⟨(responseFor store (embed request.recipient_description) false []
      (effectiveLimit request) (effectiveLimit request + List.length []), 1),
      get_recommendations_of_compute embed store request _ false [] 1 hc, ?_⟩
    simp [responseFor]

/-! Concrete fixtures used by the witnesses. -/

def wGift : Gift :=
  { id := "g1", name := "n", brief_description := "b", full_description := "f",
    price_range := PriceRange.moderate, categories := ["c"],
    embedding := [3], popularity_score := 1 }

def wStarred : Gift :=
  { id := "s1", name := "sn", brief_description := "sb",
    full_description := "sf", price_range := PriceRange.premium,
    categories := ["c"], embedding := [3], popularity_score := 1 }

def wEmbed : String → List ℚ := fun _ => [(1 : ℚ)]

def wRequest : RecommendationRequest :=
  { recipient_description := "d", past_gifts := [], starred_gift_ids := [],
    limit := 5 }

def wRequestStar : RecommendationRequest :=
  { recipient_description := "d", past_gifts := [],
    starred_gift_ids := ["s1"], limit := 5 }

def wStore : VectorStoreModel :=
  { get_by_ids := fun _ => [], search_similar := fun _ _ _ => [(wGift, 1)],
    get_popular := fun _ => [(wGift, 1)], get_total_count := 7 }

def wStoreEmpty : VectorStoreModel :=
  { get_by_ids := fun _ => [], search_similar := fun _ _ _ => [],
    get_popular := fun _ => [(wGift, 1)], get_total_count := 7 }

def wStoreStar : VectorStoreModel :=
  { get_by_ids := fun _ => [wStarred],
    search_similar := fun _ _ _ => [(wStarred, 1), (wGift, 1)],
    get_popular := fun _ => [(wGift, 1)], get_total_count := 7 }

def wResponse : RecommendationResponse :=
  { gifts := [gift_to_recommendation wGift 1],
    query_context :=
      { total_searched := 7, above_threshold := 1,
        starred_boost_applied := false, fallback_used := false } }

def wResponseFallback : RecommendationResponse :=
  { gifts := [gift_to_recommendation wGift 1],
    query_context :=
      { total_searched := 7, above_threshold := 1,
        starred_boost_applied := false, fallback_used := true } }

def wResponseStar : RecommendationResponse :=
  { gifts := [gift_to_recommendation wGift 1],
    query_context :=
      { total_searched := 7, above_threshold := 1,
        starred_boost_applied := true, fallback_used := false } }

lemma get_wStore_eq :
    get_recommendations wEmbed wStore wRequest = .ok (wResponse, 1) := by
  have hq : computeQueryVector wEmbed wStore wRequest =
      .ok (([(1 : ℚ)], false, []), 1) := rfl
  rw [get_recommendations_of_compute wEmbed wStore wRequest
    [(1 : ℚ)] false [] 1 hq]
  norm_num [responseFor, retrievedGifts, sortByScoreDesc, insertByScoreDesc,
    gift_to_recommendation, effectiveLimit, wStore, wRequest, wGift, wResponse,
    List.filter]

lemma get_wStoreEmpty_eq :
    get_recommendations wEmbed wStoreEmpty wRequest =
      .ok (wResponseFallback, 1) := by
  have hq : computeQueryVector wEmbed wStoreEmpty wRequest =
      .ok (([(1 : ℚ)], false, []), 1) := rfl
  rw [get_recommendations_of_compute wEmbed wStoreEmpty wRequest
    [(1 : ℚ)] false [] 1 hq]
  norm_num [responseFor, retrievedGifts, sortByScoreDesc, insertByScoreDesc,
    gift_to_recommendation, effectiveLimit, wStoreEmpty, wRequest, wGift,
    wResponseFallback, List.filter]

lemma compute_wStoreStar_eq :
    computeQueryVector wEmbed wStoreStar wRequestStar =
      .ok (([(2 : ℚ)], true, ["s1"]), 1) := by
  norm_num [computeQueryVector, wEmbed, wStoreStar, wRequestStar, wStarred,
    blend_embeddings, addWeighted, List.foldlM, Bind.bind, Except.bind,
    Pure.pure, Except.pure, List.dedup]

lemma get_wStoreStar_eq :
    get_recommendations wEmbed wStoreStar wRequestStar =
      .ok (wResponseStar, 1) := by
  rw [get_recommendations_of_compute wEmbed wStoreStar wRequestStar
    [(2 : ℚ)] true ["s1"] 1 compute_wStoreStar_eq]
  have hd1 : (decide (("g1" : String) = "s1")) = false := by decide
  have hd2 : (decide (("s1" : String) = "s1")) = true := by decide
  norm_num [responseFor, retrievedGifts, sortByScoreDesc, insertByScoreDesc,
    gift_to_recommendation, effectiveLimit, wStoreStar, wRequestStar, wGift,
    wStarred, wResponseStar, List.filter, hd1, hd2]

/-- C1 witness: one resolved starred item with embedding `[3]` against query
`[1]` yields the half-weighted blend. -/
theorem starred_blend_half_weight_witness :
    (¬ wRequestStar.starred_gift_ids = []) ∧
    (¬ wStoreStar.get_by_ids wRequestStar.starred_gift_ids = []) ∧
    (∃ r, computeQueryVector wEmbed wStoreStar wRequestStar =
        .ok ((r, true,
          ((wStoreStar.get_by_ids wRequestStar.starred_gift_ids).map
            (fun g => g.id)).dedup), 1) ∧
      r.length = (wEmbed wRequestStar.recipient_description).length ∧
      ∀ i, i < (wEmbed wRequestStar.recipient_description).length →
        r.getD i 0 =
          (1 : ℚ) / 2 * (wEmbed wRequestStar.recipient_description).getD i 0 +
            ((wStoreStar.get_by_ids wRequestStar.starred_gift_ids).map
              (fun g =>
                (1 : ℚ) / 2 /
                  ((wStoreStar.get_by_ids
                    wRequestStar.starred_gift_ids).length : ℚ) *
                  g.embedding.getD i 0)).sum) :=
  ⟨by simp [wRequestStar], by simp [wStoreStar],
   starred_blend_half_weight wEmbed wStoreStar wRequestStar
     (by simp [wRequestStar]) (by simp [wStoreStar])
     (by simp [wStoreStar, wStarred, wEmbed])⟩

/-- C3 witness: the starred item "s1" is returned by the similarity search
but never appears in the output. -/
theorem starred_never_recommended_witness :
    (¬ wRequestStar.starred_gift_ids = []) ∧
    get_recommendations wEmbed wStoreStar wRequestStar =
      .ok (wResponseStar, 1) ∧
    ∀ rec ∈ (wResponseStar, 1).1.gifts,
      ¬ rec.id ∈ (wStoreStar.get_by_ids wRequestStar.starred_gift_ids).map
        (fun g => g.id) :=
  ⟨by simp [wRequestStar], get_wStoreStar_eq,
   starred_never_recommended wEmbed wStoreStar wRequestStar (wResponseStar, 1)
     (by simp [wRequestStar]) get_wStoreStar_eq⟩

/-- C8 witness: `total_searched` equals the store's count (7) on a concrete
run. -/
theorem total_searched_is_store_count_witness :
    get_recommendations wEmbed wStore wRequest = .ok (wResponse, 1) ∧
    (wResponse, 1).1.query_context.total_searched = wStore.get_total_count :=
  ⟨get_wStore_eq,
   total_searched_is_store_count wEmbed wStore wRequest (wResponse, 1)
     get_wStore_eq⟩

/-- C4 witness: with an always-empty similarity search, the response comes
from the popularity listing and `fallback_used` is true. -/
theorem empty_search_uses_popular_witness :
    (computeQueryVector wEmbed wStoreEmpty wRequest =
      .ok (([(1 : ℚ)], false, []), 1)) ∧
    (wStoreEmpty.search_similar [(1 : ℚ)]
      (effectiveLimit wRequest + ([] : List String).length) ((1 : ℚ) / 2) = []) ∧
    (∃ res, get_recommendations wEmbed wStoreEmpty wRequest = .ok (res, 1) ∧
      res.query_context.fallback_used = true ∧
      res.gifts = (sortByScoreDesc
        (((wStoreEmpty.get_popular
            (effectiveLimit wRequest + ([] : List String).length)).filter
          (fun p => decide (¬ p.1.id ∈ ([] : List String)))).map
            (fun p => gift_to_recommendation p.1 p.2))).take
        (effectiveLimit wRequest)) :=
  ⟨rfl, rfl,
   empty_search_uses_popular wEmbed wStoreEmpty wRequest [(1 : ℚ)] false [] 1
     rfl rfl⟩

/-- C10 witness: on the fallback path the popular item scores 1 ≥ 0.5, so
`above_threshold` is 1 even though the similarity search returned nothing. -/
theorem fallback_above_threshold_witness :
    (computeQueryVector wEmbed wStoreEmpty wRequest =
      .ok (([(1 : ℚ)], false, []), 1)) ∧
    (wStoreEmpty.search_similar [(1 : ℚ)]
      (effectiveLimit wRequest + ([] : List String).length) ((1 : ℚ) / 2) = []) ∧
    get_recommendations wEmbed wStoreEmpty wRequest =
      .ok (wResponseFallback, 1) ∧
    (wResponseFallback, 1).1.query_context.above_threshold = 1 ∧
    (∃ res, get_recommendations wEmbed wStoreEmpty wRequest = .ok (res, 1) ∧
      res.query_context.fallback_used = true ∧
      res.query_context.above_threshold =
        (res.gifts.filter
          (fun g => decide ((1 : ℚ) / 2 ≤ g.relevance_score))).length ∧
      res.gifts = (sortByScoreDesc
        (((wStoreEmpty.get_popular
            (effectiveLimit wRequest + ([] : List String).length)).filter
          (fun p => decide (¬ p.1.id ∈ ([] : List String)))).map
            (fun p => gift_to_recommendation p.1 p.2))).take
        (effectiveLimit wRequest)) :=
  ⟨rfl, rfl, get_wStoreEmpty_eq, rfl,
   fallback_above_threshold wEmbed wStoreEmpty wRequest [(1 : ℚ)] false [] 1
     rfl rfl⟩

/-- C6 witness: the concrete output is sorted descending and stable against
the retrieval order. -/
theorem output_sorted_stable_witness :
    (computeQueryVector wEmbed wStore wRequest =
      .ok (([(1 : ℚ)], false, []), 1)) ∧
    get_recommendations wEmbed wStore wRequest = .ok (wResponse, 1) ∧
    ((wResponse, 1).1.gifts.Pairwise
      (fun a b => b.relevance_score ≤ a.relevance_score) ∧
     ∀ s : ℚ, ∃ m,
      (wResponse, 1).1.gifts.filter (fun g => decide (g.relevance_score = s)) =
        ((retrievedGifts wStore [(1 : ℚ)] []
          (effectiveLimit wRequest + ([] : List String).length)).filter
          (fun g => decide (g.relevance_score = s))).take m) :=
  ⟨rfl, get_wStore_eq,
   output_sorted_stable wEmbed wStore wRequest (wResponse, 1) [(1 : ℚ)]
     false [] 1 rfl get_wStore_eq⟩

/-- C9 witness: the store resolves no ids, the request completes, and the
boost flag is false; the iff also holds on the concrete response. -/
theorem unresolved_starred_silent_witness :
    (wStore.get_by_ids wRequest.starred_gift_ids = []) ∧
    (∃ res, get_recommendations wEmbed wStore wRequest = .ok res ∧
      res.1.query_context.starred_boost_applied = false) ∧
    ((wResponse, 1).1.query_context.starred_boost_applied = true ↔
      (¬ wRequest.starred_gift_ids = [] ∧
        ¬ wStore.get_by_ids wRequest.starred_gift_ids = [])) :=
  ⟨rfl, (unresolved_starred_silent wEmbed wStore wRequest).2 rfl,
   (unresolved_starred_silent wEmbed wStore wRequest).1 (wResponse, 1)
     get_wStore_eq⟩

end GiftRec
